import Mathlib

/-!
# Verification of the customer-RAG retrieval engine

Shallow embedding of the retrieval and query-classification core of the
customer-RAG chatbot repository:

* `scoreFn`, `simpleSearch` — the lexical fallback ranker (vectorStore.ts
  `simpleSearch`, identical to `calculateRelevance`/`searchCustomers` in the
  simple-search module);
* `cosineSimilarity` — the similarity kernel (identical in vectorStore.ts and
  vectorDb.ts);
* `searchSimilarCustomers` — the retrieval orchestrator of the vector-database
  module (the variant with the comprehensive branch and the identifier/name
  shortcuts), together with `searchSimilarCustomersDb` (the plain variant) and
  `vectorSearch` (vectorStore.ts);
* `isComprehensiveSearch`, `searchLimit`, `retrieve` — the query
  classification and orchestration of the chat API route;
* `rateLimitCheck`, `runSeq` — the per-caller sliding-window rate limiter of
  the chat API route.

Strings are modelled as `List Char` (the data is ASCII); JavaScript regular
expressions used by the code are embedded as dedicated matching functions,
one per pattern, with the leftmost-position, first-alternative semantics of
`String.prototype.match`.  Floating-point vector arithmetic is modelled over
`ℝ`.
-/

namespace CustomerRag

/-! ## Character/string primitives (JS semantics, ASCII data) -/

/-- JS `toLowerCase` on ASCII. -/
def lcChar (c : Char) : Char :=
  if 'A' ≤ c ∧ c ≤ 'Z' then Char.ofNat (c.toNat + 32) else c

/-- JS `toUpperCase` on ASCII. -/
def ucChar (c : Char) : Char :=
  if 'a' ≤ c ∧ c ≤ 'z' then Char.ofNat (c.toNat - 32) else c

def lower (s : List Char) : List Char := s.map lcChar

def upper (s : List Char) : List Char := s.map ucChar

/-- Try to consume the literal `lit` at the head of `s`; on success return
the rest of `s`. -/
def dropLit : List Char → List Char → Option (List Char)
  | [], s => some s
  | _ :: _, [] => none
  | l :: ls, c :: s => if c = l then dropLit ls s else none

/-- Does `f` hold at some start position (i.e. on some suffix) of `s`?
Positions are scanned left to right, mirroring JS regex scanning. -/
def anyPos (f : List Char → Bool) : List Char → Bool
  | [] => f []
  | c :: s => f (c :: s) || anyPos f s

/-- JS `text.includes(pat)`: `pat` occurs as a contiguous substring of
`text` (always true for the empty `pat`, as in JS). -/
def includesL (text pat : List Char) : Bool :=
  anyPos (fun s => (dropLit pat s).isSome) text

/-- First position (left to right) at which the positional matcher `f`
succeeds — the leftmost-match rule of `String.prototype.match`. -/
def firstMatch (f : List Char → Option α) : List Char → Option α
  | [] => f []
  | c :: s =>
    match f (c :: s) with
    | some a => some a
    | none => firstMatch f s

/-- JS `trim`. -/
def trimL (s : List Char) : List Char :=
  ((s.dropWhile Char.isWhitespace).reverse.dropWhile Char.isWhitespace).reverse

/-- JS `split(/\s+/)`.  We split at every whitespace character; a run of
whitespace therefore yields empty pieces between its characters where JS
would collapse the run.  Every consumer filters terms by `2 < length`, so
the extra empty pieces are inert. -/
def splitWs (s : List Char) : List (List Char) :=
  s.foldr
    (fun c acc =>
      if c.isWhitespace then [] :: acc
      else
        match acc with
        | [] => [[c]]
        | w :: ws => (c :: w) :: ws)
    [[]]

/-- The regex `\s+`: at least one whitespace character, consumed greedily. -/
def wsPlus : List Char → Option (List Char)
  | [] => none
  | c :: s => if c.isWhitespace then some (s.dropWhile Char.isWhitespace) else none

/-- The regex `\d+` (greedy): the maximal digit run and the rest. -/
def digitsRun (s : List Char) : List Char × List Char :=
  (s.takeWhile Char.isDigit, s.dropWhile Char.isDigit)

/-- JS `parseInt` on a pure digit string. -/
def natOfDigits (ds : List Char) : Nat :=
  ds.foldl (fun n c => 10 * n + (c.toNat - 48)) 0

/-- Consume an optional single character `c` (the regex `c?`). -/
def optChar (c : Char) : List Char → List Char
  | [] => []
  | x :: s => if x = c then s else x :: s

/-! ## Data model

A customer record, restricted to the fields the retrieval core reads.
`products` holds the product type tags: the searched code reads only
`p.type` (for descriptive text) and `products.length` (for product counts).
`notes` is the already-defaulted notes string (`notes || ''`). -/

structure Customer where
  id : Nat
  customerId : List Char
  firstName : List Char
  lastName : List Char
  email : List Char
  phoneNumber : List Char
  street : List Char
  city : List Char
  state : List Char
  zipCode : List Char
  products : List (List Char)
  notes : List Char
  deriving DecidableEq, Repr

/-! ## Lexical ranker (vectorStore.ts `simpleSearch`; identical logic in the
simple-search module's `calculateRelevance`/`searchCustomers`) -/

/-- The `searchText` template built in `simpleSearch` (template literal with
newline + 8-space indentation between fields, closed by newline + 6 spaces). -/
def searchText (c : Customer) : List Char :=
  let sep : List Char := '\n' :: List.replicate 8 ' '
  sep ++ c.customerId ++
  sep ++ c.firstName ++ ' ' :: c.lastName ++
  sep ++ c.email ++
  sep ++ c.phoneNumber ++
  sep ++ c.street ++ ' ' :: c.city ++ ' ' :: c.state ++ ' ' :: c.zipCode ++
  sep ++ (List.intercalate [' '] c.products) ++
  sep ++ c.notes ++
  '\n' :: List.replicate 6 ' '

/-- The `score` closure of `simpleSearch`: lower-case the text, add 10 when
the lower-cased query occurs verbatim, then walk the whitespace-split terms
adding 2 for each term of length `> 2` occurring in the text. -/
def scoreFn (query text : List Char) : Nat :=
  let queryLower := lower query
  let terms := splitWs queryLower
  let textLower := lower text
  let base := if includesL textLower queryLower then 10 else 0
  terms.foldl
    (fun sc term =>
      if 2 < term.length ∧ includesL textLower term = true then sc + 2 else sc)
    base

/-- Stable insertion of `x` into `l`, placing `x` before the first element
whose key does not exceed `x`'s: computes the descending stable order that
`Array.prototype.sort` (stable per ES2019) produces with the comparator
`(a, b) => key(b) - key(a)`. -/
def insertDescBy {α β : Type} [LinearOrder β] (key : α → β) (x : α) :
    List α → List α
  | [] => [x]
  | y :: ys => if key y ≤ key x then x :: y :: ys else y :: insertDescBy key x ys

/-- Stable descending sort by `key` (insertion sort). -/
def sortDescBy {α β : Type} [LinearOrder β] (key : α → β) (l : List α) : List α :=
  l.foldr (insertDescBy key) []

/-- vectorStore.ts `simpleSearch`: guard the empty/whitespace query, score
every record's search text, keep positive scores, sort descending by
relevance (stable), truncate to `limit`, and strip the scores. -/
def simpleSearch (query : List Char) (limit : Nat) (customers : List Customer) :
    List Customer :=
  if trimL query = [] then []
  else
    ((sortDescBy Prod.snd
        ((customers.map fun c => (c, scoreFn query (searchText c))).filter
          fun r => decide (0 < r.2))).take limit).map
      Prod.fst

/-! ## Query patterns

One matcher per JS regular expression used by the code.  Positional matchers
(`…At`) match at the start of their input; `firstMatch` lifts them to the
leftmost-match semantics of `String.prototype.match`.  All patterns are
applied to lower-cased input (they all carry the `/i` flag and contain only
lower-case literals).  Greedy `\d+`/`\s+` runs are maximal; every boundary
between adjacent tokens of these patterns is between disjoint character
classes, so maximal-run matching coincides with backtracking. -/

/-- Alternative 1 of `topNPattern`: `top\s+(\d+)\s+customers?`, returning the
captured number. -/
def topNAlt1 (s : List Char) : Option Nat := do
  let r ← dropLit "top".data s
  let r ← wsPlus r
  let (ds, r) := digitsRun r
  if ds.isEmpty then none
  else do
    let r ← wsPlus r
    let _ ← dropLit "customer".data r
    some (natOfDigits ds)

/-- Alternative 2 of `topNPattern`:
`(\d+)\s+customers?\s+with\s+(most|highest|greatest)`. -/
def topNAlt2 (s : List Char) : Option Nat := do
  let (ds, r) := digitsRun s
  if ds.isEmpty then none
  else do
    let r ← wsPlus r
    let r ← dropLit "customer".data r
    let r := optChar 's' r
    let r ← wsPlus r
    let r ← dropLit "with".data r
    let r ← wsPlus r
    if (dropLit "most".data r).isSome || (dropLit "highest".data r).isSome ||
        (dropLit "greatest".data r).isSome then
      some (natOfDigits ds)
    else none

/-- The pattern `topNPattern = /top\s+(\d+)\s+customers?|(\d+)\s+customers?\s+with\s+(most|highest|greatest)/i`
with the extracted count `parseInt(m[1] || m[2])`. -/
def listTopNMatch (q : List Char) : Option Nat :=
  firstMatch (fun s => (topNAlt1 s).orElse fun _ => topNAlt2 s) q

/-- Positional matcher for `/more than\s+(\d+)/i`. -/
def moreThanAt (s : List Char) : Option Nat := do
  let r ← dropLit "more than".data s
  let r ← wsPlus r
  let (ds, _) := digitsRun r
  if ds.isEmpty then none else some (natOfDigits ds)

/-- Applies `query.match(/more than\s+(\d+)/i)` with the captured threshold. -/
def moreThanMatchN (q : List Char) : Option Nat :=
  firstMatch moreThanAt q

/-- Positional matcher for `/list\s+top\s+(\d+)|top\s+(\d+)/i`. -/
def listTopAt (s : List Char) : Option Nat :=
  (do
    let r ← dropLit "list".data s
    let r ← wsPlus r
    let r ← dropLit "top".data r
    let r ← wsPlus r
    let (ds, _) := digitsRun r
    if ds.isEmpty then none else some (natOfDigits ds)).orElse
  fun _ => do
    let r ← dropLit "top".data s
    let r ← wsPlus r
    let (ds, _) := digitsRun r
    if ds.isEmpty then none else some (natOfDigits ds)

/-- The pattern `listTopPattern = /list\s+top\s+(\d+)|top\s+(\d+)/i` with
`parseInt(m[1] || m[2])`. -/
def listTopMatchN (q : List Char) : Option Nat :=
  firstMatch listTopAt q

/-- Positional matcher for `/list\s+(\d+)|list\s+top\s+(\d+)/i`. -/
def listAt (s : List Char) : Option Nat :=
  (do
    let r ← dropLit "list".data s
    let r ← wsPlus r
    let (ds, _) := digitsRun r
    if ds.isEmpty then none else some (natOfDigits ds)).orElse
  fun _ => do
    let r ← dropLit "list".data s
    let r ← wsPlus r
    let r ← dropLit "top".data r
    let r ← wsPlus r
    let (ds, _) := digitsRun r
    if ds.isEmpty then none else some (natOfDigits ds)

/-- The pattern `/list\s+(\d+)|list\s+top\s+(\d+)/i` with `parseInt(m[1] || m[2])`. -/
def listMatchN (q : List Char) : Option Nat :=
  firstMatch listAt q

/-- Positional matcher for `/CUST-\d{5,6}/i` on the lower-cased query: the
matched substring, upper-cased (`match[0].toUpperCase()`), is `CUST-` plus
the first `min 6` digits of a run of at least 5. -/
def custIdAt (s : List Char) : Option (List Char) := do
  let r ← dropLit "cust-".data s
  let ds := r.takeWhile Char.isDigit
  if 5 ≤ ds.length then some ("CUST-".data ++ ds.take 6) else none

/-- Applies `query.match(/CUST-\d{5,6}/i)`, upper-cased. -/
def custIdMatch (q : List Char) : Option (List Char) :=
  firstMatch custIdAt q

/-- Positional matcher for `/list top \d+ customers?/i` (literal single
spaces). -/
def listTopNCustAt (s : List Char) : Bool :=
  match dropLit "list top ".data s with
  | none => false
  | some r =>
    let (ds, r) := digitsRun r
    !ds.isEmpty && (dropLit " customer".data r).isSome

/-- Positional matcher for `/top \d+ customers? with/i` (literal single
spaces; `s?` resolved by trying both alternatives of the suffix). -/
def topNCustWithAt (s : List Char) : Bool :=
  match dropLit "top ".data s with
  | none => false
  | some r =>
    let (ds, r) := digitsRun r
    !ds.isEmpty &&
      ((dropLit " customers with".data r).isSome ||
       (dropLit " customer with".data r).isSome)

/-! ## Query classification and search limit (chat API route) -/

/-- The route's `comprehensiveSearchPatterns.some(p => p.test(userMessage))`:
`/how many customers/i`, `/customers? with more than/i`,
`/list top \d+ customers?/i`, `/top \d+ customers? with/i`,
`/most products?/i`, `/all customers?/i`, `/count/i`.  An `x?` that is
trailing or followed by a literal is expanded into the two substring
alternatives it admits. -/
def isComprehensiveSearch (query : List Char) : Bool :=
  let q := lower query
  includesL q "how many customers".data ||
  includesL q "customer with more than".data ||
  includesL q "customers with more than".data ||
  anyPos listTopNCustAt q ||
  anyPos topNCustWithAt q ||
  includesL q "most product".data ||
  includesL q "all customer".data ||
  includesL q "count".data

/-- The route's `searchLimit = isComprehensiveSearch ? 1000 : 3`. -/
def searchLimit (query : List Char) : Nat :=
  if isComprehensiveSearch query then 1000 else 3

/-! ## Cosine similarity (identical function in vectorStore.ts and
vectorDb.ts); floating-point numbers are modelled over `ℝ` -/

/-- The accumulation loop: throw on a length mismatch, otherwise accumulate
`dotProduct`, `normA`, `normB` (sums of products/squares), return `0` when
either accumulated norm is `0`, else `dot / (sqrt normA * sqrt normB)`. -/
noncomputable def cosineSimilarity (vecA vecB : List ℝ) : Except String ℝ :=
  if vecA.length ≠ vecB.length then
    Except.error "Vectors must have the same dimensions"
  else
    let dotProduct := (vecA.zip vecB).foldl (fun s p => s + p.1 * p.2) 0
    let normA := vecA.foldl (fun s x => s + x * x) 0
    let normB := vecB.foldl (fun s x => s + x * x) 0
    if normA = 0 ∨ normB = 0 then Except.ok 0
    else Except.ok (dotProduct / (Real.sqrt normA * Real.sqrt normB))

/-- Mathematical dot product, for specification. -/
def dotP (a b : List ℝ) : ℝ := ((a.zip b).map fun p => p.1 * p.2).sum

/-- Sum of squares, for specification. -/
def normSq (a : List ℝ) : ℝ := (a.map fun x => x * x).sum

/-- Euclidean norm, for specification. -/
noncomputable def normV (a : List ℝ) : ℝ := Real.sqrt (normSq a)

/-! ## Vector-database retrieval (vectorDb.ts / the vector-database module)

The external state the vector path reads: the embedding provider
(`getEmbedding`, which may fail) and the rows of the
`customers JOIN embeddings` query (record identifier and stored vector; the
per-row `JSON.parse` + `cosineSimilarity` is wrapped in a `try` that maps
any per-row failure to similarity `0`). -/

structure RagEnv : Type where
  embed : List Char → Except String (List ℝ)
  rows : List (List Char × List ℝ)

/-- The vector-search phase shared by both `searchSimilarCustomers`
variants: embed the query, score every stored row (a per-row failure gives
similarity `0`), keep positive scores, sort descending by similarity
(stable), truncate to `limit`, and join the surviving identifiers back to
the customer collection (`.find(...)`, dropping misses as `.filter(Boolean)`
does). -/
noncomputable def vectorPhase (env : RagEnv) (query : List Char) (limit : Nat)
    (cs : List Customer) : Except String (List Customer) := do
  let queryEmbedding ← env.embed query
  let scoredResults :=
    (env.rows.map fun row =>
      (row.1,
        match cosineSimilarity queryEmbedding row.2 with
        | Except.ok s => s
        | Except.error _ => (0 : ℝ))).filter
      fun r => decide (0 < r.2)
  let topResults := (sortDescBy Prod.snd scoredResults).take limit
  pure ((topResults.map fun r => cs.find? fun c => c.customerId == r.1).reduceOption)

/-- Body of the vector-database module's `searchSimilarCustomers` (the
variant with the comprehensive branch and the identifier/name shortcuts);
`Except.error` marks a thrown exception reaching the function's `catch`. -/
noncomputable def searchSimilarCustomersBody (env : RagEnv) (query : List Char)
    (limit : Nat) (cs : List Customer) : Except String (List Customer) :=
  if 50 < limit then
    -- comprehensive database search over the in-memory collection
    let q := lower query
    let listTopN := listTopNMatch q
    if includesL q "product".data then
      let sortedCustomers := sortDescBy (fun c : Customer => c.products.length) cs
      match listTopN with
      | some topN => Except.ok (sortedCustomers.take topN)
      | none =>
        if includesL q "more than".data && includesL q "product".data then
          match moreThanMatchN q with
          | some threshold =>
            let filteredCustomers :=
              sortedCustomers.filter fun c => decide (threshold < c.products.length)
            match listTopMatchN q with
            | some topN => Except.ok (filteredCustomers.take topN)
            | none =>
              if includesL q "how many".data && includesL q "list".data then
                Except.ok (filteredCustomers.take ((listMatchN q).getD 5))
              else Except.ok (filteredCustomers.take limit)
          | none =>
            Except.ok (sortedCustomers.take (min sortedCustomers.length limit))
        else Except.ok (sortedCustomers.take (min sortedCustomers.length limit))
    else Except.ok (cs.take limit)
  else
    -- identifier shortcut, then name shortcut, then vector search
    match (custIdMatch (lower query)).bind
        (fun cid => cs.find? fun c => upper c.customerId == cid) with
    | some exactCustomer => Except.ok [exactCustomer]
    | none =>
      let potentialNameMatches :=
        cs.filter fun c =>
          includesL (lower query) (lower (c.firstName ++ ' ' :: c.lastName))
      if potentialNameMatches.isEmpty then vectorPhase env query limit cs
      else Except.ok (potentialNameMatches.take limit)

/-- Function `searchSimilarCustomers` of the vector-database module: the whole body
runs in a `try`; the `catch` returns `[]`. -/
noncomputable def searchSimilarCustomers (env : RagEnv) (query : List Char)
    (limit : Nat) (cs : List Customer) : List Customer :=
  match searchSimilarCustomersBody env query limit cs with
  | Except.ok r => r
  | Except.error _ => []

/-- Function `searchSimilarCustomers` of vectorDb.ts (the plain variant: vector
search only); its `catch` falls back to the first `limit` records of the
collection (`customerData.slice(0, limit)`). -/
noncomputable def searchSimilarCustomersDb (env : RagEnv) (query : List Char)
    (limit : Nat) (cs : List Customer) : List Customer :=
  match vectorPhase env query limit cs with
  | Except.ok r => r
  | Except.error _ => cs.take limit

/-- The chat API route of the orchestrating handler: classify the query,
derive the search limit (1000 comprehensive / 3 otherwise) and call
`searchSimilarCustomers`. -/
noncomputable def retrieve (env : RagEnv) (query : List Char)
    (cs : List Customer) : List Customer :=
  searchSimilarCustomers env query (searchLimit query) cs

/-! ## In-memory vector search (vectorStore.ts `vectorSearch`)

The initialized document cache pairs each customer with its optional
embedding (`CustomerDocument`). -/

/-- Scoring of one cached document in `vectorSearch`: a document without an
embedding scores `0`; otherwise `cosineSimilarity` is applied, and its
throw (a dimension mismatch) propagates. -/
noncomputable def scoreDoc (queryEmbedding : List ℝ)
    (doc : Customer × Option (List ℝ)) : Except String (Customer × ℝ) :=
  match doc.2 with
  | none => Except.ok (doc.1, (0 : ℝ))
  | some emb => do
    let s ← cosineSimilarity queryEmbedding emb
    Except.ok (doc.1, s)

/-- Body of `vectorSearch` (inside its `try`): empty caches yield `[]`
before any provider call; otherwise embed the query and score every
document (a `cosineSimilarity` throw aborts the whole pass), keep positive
scores, sort descending (stable), truncate, and strip scores. -/
noncomputable def vectorSearchBody (docs : List (Customer × Option (List ℝ)))
    (embed : List Char → Except String (List ℝ)) (query : List Char)
    (limit : Nat) : Except String (List Customer) :=
  if docs.length = 0 then Except.ok []
  else do
    let queryEmbedding ← embed query
    let scoredResults ← docs.mapM (scoreDoc queryEmbedding)
    pure
      (((sortDescBy Prod.snd (scoredResults.filter fun r => decide (0 < r.2))).take
          limit).map Prod.fst)

/-- vectorStore.ts `vectorSearch`: on any thrown error, fall back to
`simpleSearch` with the same query and limit. -/
noncomputable def vectorSearch (docs : List (Customer × Option (List ℝ)))
    (embed : List Char → Except String (List ℝ)) (query : List Char)
    (limit : Nat) (cs : List Customer) : List Customer :=
  match vectorSearchBody docs embed query limit with
  | Except.ok r => r
  | Except.error _ => simpleSearch query limit cs

/-! ## Request throttle (chat API route)

The process-wide `rateLimitMap` is modelled as an insertion-ordered
association list (the iteration/replacement semantics of a JS `Map`). -/

abbrev Ledger := List (List Char × List Int)

def ONE_MINUTE : Int := 60000

def MAX_REQUESTS_PER_MINUTE : Nat := 10

/-- Models `rateLimitMap.get` (with `has` folded in: `none` = absent). -/
def lookupA (l : Ledger) (ip : List Char) : Option (List Int) :=
  (l.find? fun e => e.1 == ip).map Prod.snd

/-- Models `rateLimitMap.set`: replace in place when the key exists, else append. -/
def setA (l : Ledger) (ip : List Char) (v : List Int) : Ledger :=
  if l.any fun e => e.1 == ip then
    l.map fun e => if e.1 == ip then (ip, v) else e
  else l ++ [(ip, v)]

/-- The opportunistic ledger-wide cleanup (runs only past 1000 entries):
prune every entry's stale timestamps and drop entries left empty. -/
def cleanupLedger (l : Ledger) (now : Int) : Ledger :=
  if 1000 < l.length then
    l.filterMap fun e =>
      let recent := e.2.filter fun ts => decide (now - ts < ONE_MINUTE)
      if recent.isEmpty then none else some (e.1, recent)
  else l

/-- One request through the rate-limiting section of the route's `POST`
handler: prune the caller's stale timestamps, reject (without touching the
ledger) when the pruned count already meets the cap, otherwise record `now`
and run the opportunistic cleanup.  Returns (accepted?, new ledger). -/
def rateLimitCheck (l : Ledger) (ip : List Char) (now : Int) : Bool × Ledger :=
  match lookupA l ip with
  | some timestamps =>
    let recentTimestamps := timestamps.filter fun ts => decide (now - ts < ONE_MINUTE)
    if MAX_REQUESTS_PER_MINUTE ≤ recentTimestamps.length then (false, l)
    else (true, cleanupLedger (setA l ip (recentTimestamps ++ [now])) now)
  | none => (true, cleanupLedger (setA l ip [now]) now)

/-- A sequence of requests from one caller at the given times: the final
ledger and the per-request accept/reject decisions. -/
def runSeq (l : Ledger) (ip : List Char) : List Int → Ledger × List Bool
  | [] => (l, [])
  | t :: ts =>
    let step := rateLimitCheck l ip t
    let rest := runSeq step.2 ip ts
    (rest.1, step.1 :: rest.2)

/-! ## Properties of the stable descending sort -/

section SortLemmas

variable {α β : Type} [LinearOrder β] (key : α → β)

theorem insertDescBy_cons_pos {x y : α} (ys : List α) (h : key y ≤ key x) :
    insertDescBy key x (y :: ys) = x :: y :: ys := by
  simp [insertDescBy, h]

theorem insertDescBy_cons_neg {x y : α} (ys : List α) (h : ¬ key y ≤ key x) :
    insertDescBy key x (y :: ys) = y :: insertDescBy key x ys := by
  simp [insertDescBy, h]

theorem insertDescBy_perm (x : α) (l : List α) :
    List.Perm (insertDescBy key x l) (x :: l) := by
  induction l with
  | nil => simp [insertDescBy]
  | cons y ys ih =>
    by_cases h : key y ≤ key x
    · rw [insertDescBy_cons_pos key ys h]
    · rw [insertDescBy_cons_neg key ys h]
      exact (ih.cons y).trans (List.Perm.swap x y ys)

theorem sortDescBy_perm (l : List α) : List.Perm (sortDescBy key l) l := by
  induction l with
  | nil => simp [sortDescBy]
  | cons x xs ih =>
    exact (insertDescBy_perm key x (sortDescBy key xs)).trans (ih.cons x)

theorem length_sortDescBy (l : List α) :
    (sortDescBy key l).length = l.length :=
  (sortDescBy_perm key l).length_eq

theorem sorted_insertDescBy (x : α) {l : List α}
    (h : l.Pairwise fun a b => key b ≤ key a) :
    (insertDescBy key x l).Pairwise fun a b => key b ≤ key a := by
  induction l with
  | nil => simp [insertDescBy]
  | cons y ys ih =>
    cases h with
    | cons hy hys =>
      by_cases hxy : key y ≤ key x
      · rw [insertDescBy_cons_pos key ys hxy]
        refine List.Pairwise.cons ?_ (List.Pairwise.cons hy hys)
        intro z hz
        rcases List.mem_cons.mp hz with rfl | hz
        · exact hxy
        · exact le_trans (hy z hz) hxy
      · rw [insertDescBy_cons_neg key ys hxy]
        refine List.Pairwise.cons ?_ (ih hys)
        intro z hz
        rcases List.mem_cons.mp ((insertDescBy_perm key x ys).mem_iff.mp hz) with
          rfl | hz
        · exact le_of_lt (lt_of_not_le hxy)
        · exact hy z hz

theorem sortDescBy_sorted (l : List α) :
    (sortDescBy key l).Pairwise fun a b => key b ≤ key a := by
  induction l with
  | nil => simp [sortDescBy]
  | cons x xs ih => exact sorted_insertDescBy key x ih

/-- Stability of the insertion step, characterised through filters: for any
key value `k`, inserting an element of key `k` prepends it to the `k`-slice
and leaves every other slice unchanged. -/
theorem filter_insertDescBy (k : β) (x : α) (l : List α) :
    (insertDescBy key x l).filter (fun a => decide (key a = k)) =
      (if key x = k then [x] else []) ++ l.filter fun a => decide (key a = k) := by
  induction l with
  | nil => by_cases hx : key x = k <;> simp [insertDescBy, hx]
  | cons y ys ih =>
    by_cases hxy : key y ≤ key x
    · rw [insertDescBy_cons_pos key ys hxy]
      by_cases hx : key x = k
      · rw [List.filter_cons_of_pos (by simpa using hx), if_pos hx]
        rfl
      · rw [List.filter_cons_of_neg (by simpa using hx), if_neg hx]
        rfl
    · rw [insertDescBy_cons_neg key ys hxy]
      by_cases hy : key y = k
      · -- the pending element's key strictly exceeds `key y`, so it cannot
        -- equal `k` and the `k`-slice starts with `y` on both sides
        have hxk : ¬ key x = k := fun hxk =>
          hxy (le_of_eq (hy.trans hxk.symm))
        rw [List.filter_cons_of_pos (by simpa using hy), ih, if_neg hxk]
        simp only [List.nil_append]
        rw [List.filter_cons_of_pos (by simpa using hy)]
      · rw [List.filter_cons_of_neg (by simpa using hy), ih,
          List.filter_cons_of_neg (by simpa using hy)]

/-- Stability of the sort: every equal-key slice of the sorted list is the
corresponding slice of the input, in input order. -/
theorem sortDescBy_filter_key (k : β) (l : List α) :
    (sortDescBy key l).filter (fun a => decide (key a = k)) =
      l.filter fun a => decide (key a = k) := by
  induction l with
  | nil => rfl
  | cons x xs ih =>
    show (insertDescBy key x (sortDescBy key xs)).filter _ = _
    rw [filter_insertDescBy, ih]
    by_cases hx : key x = k <;> simp [hx]

end SortLemmas

/-- The `score += 2` accumulation of the lexical ranker, as a filtered count
(each qualifying term contributes 2, counted with multiplicity). -/
theorem foldl_add_two {α : Type} (p : α → Prop) [DecidablePred p] :
    ∀ (l : List α) (base : Nat),
      l.foldl (fun sc t => if p t then sc + 2 else sc) base =
        base + 2 * (l.filter fun t => decide (p t)).length := by
  intro l
  induction l with
  | nil => simp
  | cons x xs ih =>
    intro base
    by_cases hx : p x
    · simp [hx, ih, Nat.mul_add, Nat.add_assoc, Nat.add_comm 2]
    · simp [hx, ih]

/-! ## Concrete fixtures used by witnesses and counterexamples -/

/-- A record collection entry with `n` products. -/
def mkCustomer (i : Nat) (idTail : Char) (first last : List Char) (n : Nat) :
    Customer :=
  { id := i, customerId := "CUST-1000".data ++ [idTail], firstName := first,
    lastName := last, email := "x@example.com".data,
    phoneNumber := "555-0100".data, street := "1 Elm St".data,
    city := "Springfield".data, state := "IL".data, zipCode := "62701".data,
    products := List.replicate n "savings".data, notes := [] }

def custA : Customer := mkCustomer 1 '1' "alice".data "smith".data 1

def custB : Customer := mkCustomer 2 '2' "bob".data "jones".data 2

/-- A record whose descriptive text contains "abc" (in its notes). -/
def custAbc : Customer :=
  { mkCustomer 3 '3' "carol".data "white".data 0 with notes := "abc".data }

/-- An environment whose embedding provider always fails and whose embedding
store is empty. -/
def envProviderDown : RagEnv :=
  { embed := fun _ => Except.error "provider error", rows := [] }

/-- An environment with a populated embedding store and a working provider. -/
noncomputable def envWithRows : RagEnv :=
  { embed := fun _ => Except.ok [(1 : ℝ)],
    rows := [("CUST-10001".data, [(1 : ℝ)])] }

/-! ## Claims -/

/-- The scoring formula as the specification words it: +10 for a verbatim
occurrence of the lower-cased query, +2 for every **distinct** query term of
length `> 2` occurring in the lower-cased text. -/
def scoreSpecDistinct (query text : List Char) : Nat :=
  (if includesL (lower text) (lower query) then 10 else 0) +
    2 * ((splitWs (lower query)).filter fun t =>
          decide (2 < t.length) && includesL (lower text) t).dedup.length

/-- C5 (counterexample): for the query "abc abc" against a record whose
descriptive text contains "abc", the code's lexical score counts the
duplicated term twice (score 4), while the claimed formula with *distinct*
terms gives 2. -/
theorem scoreFn_distinct_cex :
    scoreFn "abc abc".data (searchText custAbc) = 4 ∧
    scoreSpecDistinct "abc abc".data (searchText custAbc) = 2 := by
  decide

/-- C5 (amended): the lexical relevance score equals 10 times the indicator
that the lower-cased query occurs verbatim in the lower-cased text, plus 2
for each entry of the whitespace-split term list of length greater than 2
occurring in the text — terms counted with multiplicity (a term repeated in
the query contributes once per occurrence), and independent of the term's
position in, or frequency of occurrence within, the text. -/
theorem scoreFn_eq (query text : List Char) :
    scoreFn query text =
      (if includesL (lower text) (lower query) then 10 else 0) +
        2 * ((splitWs (lower query)).filter fun t =>
              decide (2 < t.length) && includesL (lower text) t).length := by
  unfold scoreFn
  rw [foldl_add_two fun t : List Char =>
    2 < t.length ∧ includesL (lower text) t = true]
  have hpred :
      (fun t : List Char =>
          decide (2 < t.length ∧ includesL (lower text) t = true)) =
        fun t : List Char => decide (2 < t.length) && includesL (lower text) t := by
    funext t
    by_cases h : 2 < t.length <;> cases hb : includesL (lower text) t <;>
      simp [h, hb]
  rw [hpred]

/-- C6 (confirmed): an empty or whitespace-only query makes the lexical
retrieval operation return the empty result set (and, being a total
function, it raises no error). -/
theorem simpleSearch_empty_query (query : List Char) (limit : Nat)
    (cs : List Customer) (h : trimL query = []) :
    simpleSearch query limit cs = [] := by
  unfold simpleSearch
  rw [if_pos h]

/-- Witness for C6 at the whitespace-only query `"   "`. -/
theorem simpleSearch_empty_query_witness :
    trimL "   ".data = [] ∧ simpleSearch "   ".data 3 [custA] = [] :=
  ⟨by decide, simpleSearch_empty_query "   ".data 3 [custA] (by decide)⟩

/-- C2 (counterexample): the query "all customers like CUST-10002" contains
the valid identifier CUST-10002 of an existing record (`custB`), but its
comprehensive-search phrasing ("all customers") routes it into the
comprehensive branch, which returns the whole collection instead of the
single identified record: the identifier shortcut does *not* take
precedence over comprehensive phrasing. -/
theorem custId_shortcut_cex :
    custIdMatch (lower "all customers like CUST-10002".data) =
        some "CUST-10002".data ∧
    upper custB.customerId = "CUST-10002".data ∧ custB ∈ [custA, custB] ∧
    retrieve envProviderDown "all customers like CUST-10002".data
        [custA, custB] = [custA, custB] ∧
    ([custA, custB] : List Customer) ≠ [custB] := by
  refine ⟨by decide, by decide, by decide, by decide, by decide⟩

/-- C2 (amended): for every query that contains a valid identifier of an
existing record *and is not classified comprehensive*, retrieval returns
exactly the matching record, regardless of any other query content; the
similarity and lexical rankers are bypassed (the result does not depend on
the embedding environment).  Under comprehensive classification the
comprehensive branch takes precedence and the identifier shortcut is
skipped. -/
theorem custId_shortcut (env : RagEnv) (query : List Char) (cs : List Customer)
    (c : Customer) (cid : List Char)
    (hcomp : isComprehensiveSearch query = false)
    (hid : custIdMatch (lower query) = some cid)
    (hfind : cs.find? (fun c' => upper c'.customerId == cid) = some c) :
    retrieve env query cs = [c] := by
  unfold retrieve searchLimit
  rw [hcomp]
  simp only [Bool.false_eq_true, if_false]
  unfold searchSimilarCustomers searchSimilarCustomersBody
  rw [if_neg (by omega : ¬ (50 : Nat) < 3), hid]
  simp [hfind]

/-- Witness for C2 (amended) at the query "info CUST-10002 please". -/
theorem custId_shortcut_witness :
    isComprehensiveSearch "info CUST-10002 please".data = false ∧
    retrieve envProviderDown "info CUST-10002 please".data [custA, custB] =
      [custB] :=
  ⟨by decide,
    custId_shortcut envProviderDown "info CUST-10002 please".data [custA, custB]
      custB "CUST-10002".data (by decide) (by decide) (by decide)⟩

/-- C3 (confirmed): the query "top 5 customers with most products" is
classified comprehensive, and against any collection of at least 5 records
retrieval returns exactly 5 records, the prefix of the stable descending
sort by product count: the order is non-increasing in product count, and
each equal-count slice of the sorted collection is exactly the corresponding
slice of the original collection in original order (stable ties). -/
theorem top5_query (env : RagEnv) (cs : List Customer) (h5 : 5 ≤ cs.length) :
    isComprehensiveSearch "top 5 customers with most products".data = true ∧
    retrieve env "top 5 customers with most products".data cs =
      (sortDescBy (fun c : Customer => c.products.length) cs).take 5 ∧
    (retrieve env "top 5 customers with most products".data cs).length = 5 ∧
    (retrieve env "top 5 customers with most products".data cs).Pairwise
      (fun a b => b.products.length ≤ a.products.length) ∧
    ∀ k, (sortDescBy (fun c : Customer => c.products.length) cs).filter
        (fun c => decide (c.products.length = k)) =
      cs.filter fun c => decide (c.products.length = k) := by
  have hr : retrieve env "top 5 customers with most products".data cs =
      (sortDescBy (fun c : Customer => c.products.length) cs).take 5 := rfl
  refine ⟨by decide, hr, ?_, ?_, ?_⟩
  · rw [hr, List.length_take, length_sortDescBy]
    omega
  · rw [hr]
    exact (sortDescBy_sorted _ cs).sublist (List.take_sublist 5 _)
  · exact fun k => sortDescBy_filter_key _ k cs

/-- Witness for C3 on a concrete 5-record collection. -/
theorem top5_query_witness :
    5 ≤ ([mkCustomer 1 '1' "ann".data "lee".data 2,
          mkCustomer 2 '2' "ben".data "kim".data 0,
          mkCustomer 3 '3' "cal".data "fox".data 5,
          mkCustomer 4 '4' "dot".data "ash".data 1,
          mkCustomer 5 '5' "eva".data "orr".data 3] : List Customer).length ∧
    retrieve envProviderDown "top 5 customers with most products".data
        [mkCustomer 1 '1' "ann".data "lee".data 2,
         mkCustomer 2 '2' "ben".data "kim".data 0,
         mkCustomer 3 '3' "cal".data "fox".data 5,
         mkCustomer 4 '4' "dot".data "ash".data 1,
         mkCustomer 5 '5' "eva".data "orr".data 3] =
      (sortDescBy (fun c : Customer => c.products.length)
        [mkCustomer 1 '1' "ann".data "lee".data 2,
         mkCustomer 2 '2' "ben".data "kim".data 0,
         mkCustomer 3 '3' "cal".data "fox".data 5,
         mkCustomer 4 '4' "dot".data "ash".data 1,
         mkCustomer 5 '5' "eva".data "orr".data 3]).take 5 :=
  ⟨by decide,
    (top5_query envProviderDown _ (by decide)).2.1⟩

/-- C4 (counterexample): the query "top 2 customers with more than 3
products" contains "customers with more than 3 products" *and* a "top N"
clause, yet retrieval returns the 2 highest-product-count records even
though neither passes the `> 3` filter — the top-N-customers sub-intent
takes precedence and the threshold filter is never applied, contradicting
"exactly N records are returned (or fewer if fewer than N records pass the
filter)". -/
theorem more_than_query_cex :
    includesL (lower "top 2 customers with more than 3 products".data)
        "customers with more than 3 products".data = true ∧
    retrieve envProviderDown "top 2 customers with more than 3 products".data
        [custA, custB] = [custB, custA] ∧
    ¬ 3 < custB.products.length ∧ ¬ 3 < custA.products.length := by
  refine ⟨by decide, by decide, by decide, by decide⟩

/-- C4 (amended): for the query "customers with more than 3 products"
(which does not match the top-N-customers pattern), retrieval returns
exactly the records with product count greater than 3 — a permutation of
the filtered collection, in non-increasing product-count order — bounded
only by the comprehensive search limit of 1000 (no effective bound for
collections of at most 1000 records); when the query additionally carries a
"list top N"/"top N" clause *not of the form `top N customers`*, exactly
the first N of those records are returned.  Queries whose top-N clause
matches `top N customers` instead take the top-N-by-count path (see the
counterexample). -/
theorem more_than_query (env : RagEnv) (cs : List Customer)
    (h : cs.length ≤ 1000) :
    retrieve env "customers with more than 3 products".data cs =
      (sortDescBy (fun c : Customer => c.products.length) cs).filter
        (fun c => decide (3 < c.products.length)) ∧
    ((sortDescBy (fun c : Customer => c.products.length) cs).filter
        (fun c => decide (3 < c.products.length))).Pairwise
      (fun a b => b.products.length ≤ a.products.length) ∧
    List.Perm
      ((sortDescBy (fun c : Customer => c.products.length) cs).filter
        fun c => decide (3 < c.products.length))
      (cs.filter fun c => decide (3 < c.products.length)) ∧
    retrieve env "customers with more than 3 products, list top 2".data cs =
      ((sortDescBy (fun c : Customer => c.products.length) cs).filter
        (fun c => decide (3 < c.products.length))).take 2 := by
  have hr : retrieve env "customers with more than 3 products".data cs =
      ((sortDescBy (fun c : Customer => c.products.length) cs).filter
        (fun c => decide (3 < c.products.length))).take 1000 := rfl
  refine ⟨?_, ?_, ?_, rfl⟩
  · rw [hr]
    refine List.take_of_length_le ?_
    calc ((sortDescBy (fun c : Customer => c.products.length) cs).filter
            (fun c => decide (3 < c.products.length))).length
        ≤ (sortDescBy (fun c : Customer => c.products.length) cs).length :=
          List.length_filter_le _ _
      _ = cs.length := length_sortDescBy _ cs
      _ ≤ 1000 := h
  · exact (sortDescBy_sorted _ cs).sublist (List.filter_sublist _)
  · exact (sortDescBy_perm _ cs).filter _

/-- Witness for C4 (amended) on a concrete collection. -/
theorem more_than_query_witness :
    ([mkCustomer 1 '1' "ann".data "lee".data 5, custA] : List Customer).length
        ≤ 1000 ∧
    retrieve envProviderDown "customers with more than 3 products".data
        [mkCustomer 1 '1' "ann".data "lee".data 5, custA] =
      (sortDescBy (fun c : Customer => c.products.length)
        [mkCustomer 1 '1' "ann".data "lee".data 5, custA]).filter
          fun c => decide (3 < c.products.length) :=
  ⟨by decide,
    (more_than_query envProviderDown
      [mkCustomer 1 '1' "ann".data "lee".data 5, custA] (by decide)).1⟩

/-- C10 (confirmed): on the comprehensive path (limit greater than 50) the
result of `searchSimilarCustomers` is a function of the query string and
the in-memory customer collection alone: the embedding environment
(provider and stored embeddings) is never consulted, so two runs with
identical query and collection but arbitrarily different embedding
environments return identical results. -/
theorem comprehensive_env_independent (env₁ env₂ : RagEnv) (query : List Char)
    (limit : Nat) (cs : List Customer) (h : 50 < limit) :
    searchSimilarCustomers env₁ query limit cs =
      searchSimilarCustomers env₂ query limit cs := by
  have hb : searchSimilarCustomersBody env₁ query limit cs =
      searchSimilarCustomersBody env₂ query limit cs := by
    unfold searchSimilarCustomersBody
    rw [if_pos h, if_pos h]
  unfold searchSimilarCustomers
  rw [hb]

/-- Witness for C10: a failing empty environment versus a populated working
one, at limit 51. -/
theorem comprehensive_env_independent_witness :
    (50 : Nat) < 51 ∧
    searchSimilarCustomers envProviderDown "savings".data 51 [custA, custB] =
      searchSimilarCustomers envWithRows "savings".data 51 [custA, custB] :=
  ⟨by decide,
    comprehensive_env_independent envProviderDown envWithRows "savings".data 51
      [custA, custB] (by decide)⟩

theorem exceptBind_ok {α β : Type} (a : α) (f : α → Except String β) :
    (Except.ok a >>= f) = f a := rfl

theorem exceptBind_error {α β : Type} (e : String) (f : α → Except String β) :
    ((Except.error e : Except String α) >>= f) = Except.error e := rfl

/-- A cached embedding of the wrong dimension makes the per-document
scoring of `vectorSearch` throw. -/
theorem scoreDoc_mismatch (qv emb : List ℝ) (c : Customer)
    (h : emb.length ≠ qv.length) :
    ∃ e, scoreDoc qv (c, some emb) = Except.error e := by
  refine ⟨"Vectors must have the same dimensions", ?_⟩
  show (cosineSimilarity qv emb >>= fun s => Except.ok (c, s)) = _
  rw [show cosineSimilarity qv emb =
      Except.error "Vectors must have the same dimensions" from by
    unfold cosineSimilarity
    rw [if_pos fun hl => h hl.symm]]
  rfl

/-- A single mismatched document aborts the whole scoring pass. -/
theorem mapM_scoreDoc_error (qv : List ℝ) :
    ∀ (docs : List (Customer × Option (List ℝ))) (c : Customer)
      (emb : List ℝ), (c, some emb) ∈ docs → emb.length ≠ qv.length →
      ∃ e, docs.mapM (scoreDoc qv) = Except.error e := by
  intro docs
  induction docs with
  | nil => intro c emb hmem; exact absurd hmem (List.not_mem_nil _)
  | cons d ds ih =>
    intro c emb hmem hlen
    rw [List.mapM_cons]
    rcases List.mem_cons.mp hmem with rfl | hmem
    · obtain ⟨e, he⟩ := scoreDoc_mismatch qv emb c hlen
      exact ⟨e, by rw [he, exceptBind_error]⟩
    · cases hd : scoreDoc qv d with
      | error e => exact ⟨e, by rw [exceptBind_error]⟩
      | ok x =>
        obtain ⟨e, he⟩ := ih c emb hmem hlen
        refine ⟨e, ?_⟩
        rw [exceptBind_ok, he, exceptBind_error]

/-- C1 (counterexample): when the embedding provider fails, the
vector-database `searchSimilarCustomers` returns `[]`, not the Lexical
Ranker's result: for the query "alice" over a one-record collection the
lexical ranker finds the record, but the failed retrieval returns the empty
list. -/
theorem vector_fallback_cex :
    searchSimilarCustomers envProviderDown "alice".data 3 [custA] = [] ∧
    simpleSearch "alice".data 3 [custA] = [custA] ∧
    searchSimilarCustomers envProviderDown "alice".data 3 [custA] ≠
      simpleSearch "alice".data 3 [custA] := by
  refine ⟨by decide, by decide, by decide⟩

/-- C1 (amended): the fallback on vector-path failure differs per function,
and never itself throws (each fallback is a total computation):
`vectorSearch` (vectorStore.ts) falls back to the Lexical Ranker
(`simpleSearch`) with the same query and limit on a provider error or on a
stored-embedding dimension mismatch — but returns `[]` (not the lexical
result) when the embedding store is empty; `searchSimilarCustomers` of
vectorDb.ts returns the first `limit` records of the collection;
`searchSimilarCustomers` of the vector-database module returns `[]`. -/
theorem vector_fallback :
    (∀ (docs : List (Customer × Option (List ℝ)))
        (embed : List Char → Except String (List ℝ)) (query : List Char)
        (limit : Nat) (cs : List Customer) (e : String),
        docs ≠ [] → embed query = Except.error e →
        vectorSearch docs embed query limit cs = simpleSearch query limit cs) ∧
    (∀ (docs : List (Customer × Option (List ℝ)))
        (embed : List Char → Except String (List ℝ)) (query : List Char)
        (limit : Nat) (cs : List Customer) (qv emb : List ℝ) (c : Customer),
        embed query = Except.ok qv → (c, some emb) ∈ docs →
        emb.length ≠ qv.length →
        vectorSearch docs embed query limit cs = simpleSearch query limit cs) ∧
    (∀ (embed : List Char → Except String (List ℝ)) (query : List Char)
        (limit : Nat) (cs : List Customer),
        vectorSearch [] embed query limit cs = []) ∧
    (∀ (env : RagEnv) (query : List Char) (limit : Nat) (cs : List Customer)
        (e : String), env.embed query = Except.error e →
        searchSimilarCustomersDb env query limit cs = cs.take limit) ∧
    (∀ (env : RagEnv) (query : List Char) (limit : Nat) (cs : List Customer)
        (e : String), env.embed query = Except.error e → limit ≤ 50 →
        (custIdMatch (lower query)).bind
          (fun cid => cs.find? fun c => upper c.customerId == cid) = none →
        (cs.filter fun c =>
          includesL (lower query) (lower (c.firstName ++ ' ' :: c.lastName)))
            = [] →
        searchSimilarCustomers env query limit cs = []) := by
  refine ⟨?_, ?_, ?_, ?_, ?_⟩
  · intro docs embed query limit cs e hne hembed
    have hbody : vectorSearchBody docs embed query limit = Except.error e := by
      unfold vectorSearchBody
      rw [if_neg fun hl => hne (List.length_eq_zero.mp hl), hembed]
      rfl
    unfold vectorSearch
    rw [hbody]
  · intro docs embed query limit cs qv emb c hok hmem hlen
    obtain ⟨e, he⟩ := mapM_scoreDoc_error qv docs c emb hmem hlen
    have hne : docs ≠ [] := by
      intro h
      subst h
      exact List.not_mem_nil _ hmem
    have hbody : vectorSearchBody docs embed query limit = Except.error e := by
      unfold vectorSearchBody
      rw [if_neg fun hl => hne (List.length_eq_zero.mp hl), hok]
      simp only [exceptBind_ok]
      rw [he, exceptBind_error]
    unfold vectorSearch
    rw [hbody]
  · intro embed query limit cs
    rfl
  · intro env query limit cs e hembed
    have hvp : vectorPhase env query limit cs = Except.error e := by
      unfold vectorPhase
      rw [hembed]
      rfl
    unfold searchSimilarCustomersDb
    rw [hvp]
  · intro env query limit cs e hembed hlim hbind hfilter
    have hvp : vectorPhase env query limit cs = Except.error e := by
      unfold vectorPhase
      rw [hembed]
      rfl
    have hbody : searchSimilarCustomersBody env query limit cs =
        vectorPhase env query limit cs := by
      unfold searchSimilarCustomersBody
      rw [if_neg (show ¬ (50 : Nat) < limit by omega), hbind, hfilter]
      rfl
    unfold searchSimilarCustomers
    rw [hbody, hvp]

/-- Witness for C1 (amended), one instance per conjunct. -/
theorem vector_fallback_witness :
    vectorSearch [(custA, none)] (fun _ => Except.error "provider error")
        "alice".data 3 [custA] = simpleSearch "alice".data 3 [custA] ∧
    vectorSearch [(custA, some [(1 : ℝ), 0])] (fun _ => Except.ok [(1 : ℝ)])
        "alice".data 3 [custA] = simpleSearch "alice".data 3 [custA] ∧
    vectorSearch [] (fun _ => Except.error "provider error")
        "alice".data 3 [custA] = [] ∧
    searchSimilarCustomersDb envProviderDown "alice".data 3 [custA] =
      ([custA] : List Customer).take 3 ∧
    searchSimilarCustomers envProviderDown "bob".data 3 [custA] = [] :=
  ⟨vector_fallback.1 [(custA, none)] _ "alice".data 3 [custA] "provider error"
      (List.cons_ne_nil _ _) rfl,
    vector_fallback.2.1 [(custA, some [(1 : ℝ), 0])] _ "alice".data 3 [custA]
      [(1 : ℝ)] [(1 : ℝ), 0] custA rfl (List.mem_singleton.mpr rfl)
      (by simp),
    vector_fallback.2.2.1 _ "alice".data 3 [custA],
    vector_fallback.2.2.2.1 envProviderDown "alice".data 3 [custA]
      "provider error" rfl,
    vector_fallback.2.2.2.2 envProviderDown "bob".data 3 [custA]
      "provider error" rfl (by decide) (by decide) (by decide)⟩

/-! ## Rate-limiter lemmas -/

theorem lookupA_single (ip : List Char) (v : List Int) :
    lookupA [(ip, v)] ip = some v := by
  simp [lookupA]

theorem setA_single (ip : List Char) (v w : List Int) :
    setA [(ip, v)] ip w = [(ip, w)] := by
  simp [setA]

theorem cleanupLedger_small {l : Ledger} (now : Int) (h : l.length ≤ 1000) :
    cleanupLedger l now = l := by
  unfold cleanupLedger
  rw [if_neg (by omega)]

/-- One accepted request from a caller whose whole recorded list is inside
the window. -/
theorem rateLimitCheck_accept (ip : List Char) (cur : List Int) (t : Int)
    (hwin : ∀ x ∈ cur, t - x < ONE_MINUTE) (hroom : cur.length < 10) :
    rateLimitCheck [(ip, cur)] ip t = (true, [(ip, cur ++ [t])]) := by
  unfold rateLimitCheck
  simp only [lookupA_single]
  rw [List.filter_eq_self.mpr fun x hx => decide_eq_true (hwin x hx)]
  rw [if_neg (by simp only [MAX_REQUESTS_PER_MINUTE]; omega)]
  rw [setA_single, cleanupLedger_small t (by simp)]

/-- One rejected request: the recorded list fills the cap and survives the
pruning. -/
theorem rateLimitCheck_reject (ip : List Char) (cur : List Int) (t : Int)
    (hwin : ∀ x ∈ cur, t - x < ONE_MINUTE) (hfull : 10 ≤ cur.length) :
    rateLimitCheck [(ip, cur)] ip t = (false, [(ip, cur)]) := by
  unfold rateLimitCheck
  simp only [lookupA_single]
  rw [List.filter_eq_self.mpr fun x hx => decide_eq_true (hwin x hx)]
  rw [if_pos (by simpa [MAX_REQUESTS_PER_MINUTE] using hfull)]

/-- Running a caller's requests against a ledger holding only that caller's
current (in-window) timestamps: with `cur.length + pending.length = 11` and
all differences inside the window, the first `10 - cur.length` requests are
accepted and the eleventh overall is rejected. -/
theorem runSeq_full (ip : List Char) :
    ∀ (pending cur : List Int), pending ≠ [] →
      cur.length + pending.length = 11 →
      (∀ x ∈ cur, ∀ y ∈ pending, y - x < ONE_MINUTE) →
      pending.Pairwise (fun a b => b - a < ONE_MINUTE) →
      (runSeq [(ip, cur)] ip pending).2 =
        List.replicate (10 - cur.length) true ++ [false] := by
  intro pending
  induction pending with
  | nil => intro cur hne; exact absurd rfl hne
  | cons t ts ih =>
    intro cur _ hlen hwin hpair
    have hwt : ∀ x ∈ cur, t - x < ONE_MINUTE := fun x hx =>
      hwin x hx t (List.mem_cons_self t ts)
    by_cases hfull : 10 ≤ cur.length
    · have hts : ts = [] := by
        have : ts.length = 0 := by
          have h11 := hlen
          simp only [List.length_cons] at h11
          have hcur : cur.length ≤ 11 := by omega
          -- the cap is met, so the eleventh timestamp list is exhausted
          omega
        exact List.length_eq_zero.mp this
      subst hts
      have hc : cur.length = 10 := by
        simp only [List.length_cons, List.length_nil] at hlen
        omega
      show (rateLimitCheck [(ip, cur)] ip t).1 ::
          (runSeq (rateLimitCheck [(ip, cur)] ip t).2 ip []).2 =
        List.replicate (10 - cur.length) true ++ [false]
      rw [rateLimitCheck_reject ip cur t hwt hfull]
      simp [runSeq, hc]
    · push_neg at hfull
      show (rateLimitCheck [(ip, cur)] ip t).1 ::
          (runSeq (rateLimitCheck [(ip, cur)] ip t).2 ip ts).2 =
        List.replicate (10 - cur.length) true ++ [false]
      rw [rateLimitCheck_accept ip cur t hwt hfull]
      have hne' : ts ≠ [] := by
        intro h
        subst h
        simp only [List.length_cons, List.length_nil] at hlen
        omega
      show true :: (runSeq [(ip, cur ++ [t])] ip ts).2 = _
      rw [ih (cur ++ [t]) hne'
        (by simp only [List.length_append, List.length_singleton]
            simp only [List.length_cons] at hlen
            omega)
        (by
          intro x hx y hy
          rcases List.mem_append.mp hx with hx | hx
          · exact hwin x hx y (List.mem_cons_of_mem t hy)
          · rcases List.mem_singleton.mp hx with rfl
            exact (List.pairwise_cons.mp hpair).1 y hy)
        (List.pairwise_cons.mp hpair).2]
      have h10 : 10 - cur.length = (10 - (cur ++ [t]).length) + 1 := by
        simp only [List.length_append, List.length_singleton]
        omega
      rw [h10, List.replicate_succ]
      simp

/-- C8 (confirmed): with cap 10 and window `ONE_MINUTE`, eleven requests
from one caller all inside a single window starting from a fresh ledger get
ten accepts followed by a reject; and whenever every recorded timestamp of
a caller is at least a full window old, that caller's next request is
accepted. -/
theorem rateLimit_claim (ip : List Char) :
    (∀ ts : List Int, ts.length = 11 →
        ts.Pairwise (fun a b => b - a < ONE_MINUTE) →
        (runSeq [] ip ts).2 = List.replicate 10 true ++ [false]) ∧
    (∀ (l : Ledger) (now : Int) (recorded : List Int),
        lookupA l ip = some recorded →
        (∀ t ∈ recorded, ONE_MINUTE ≤ now - t) →
        (rateLimitCheck l ip now).1 = true) := by
  constructor
  · intro ts h11 hpair
    cases ts with
    | nil => simp at h11
    | cons t ts' =>
      have hstep : rateLimitCheck [] ip t = (true, [(ip, [t])]) := by
        unfold rateLimitCheck
        rw [show lookupA [] ip = none from rfl]
        show (true, cleanupLedger (setA [] ip [t]) t) = _
        rw [show setA [] ip [t] = [(ip, [t])] from by simp [setA],
          cleanupLedger_small t (by simp)]
      show (rateLimitCheck [] ip t).1 ::
          (runSeq (rateLimitCheck [] ip t).2 ip ts').2 =
        List.replicate 10 true ++ [false]
      rw [hstep]
      show true :: (runSeq [(ip, [t])] ip ts').2 = _
      rw [runSeq_full ip ts' [t]
        (by
          intro h
          subst h
          simp at h11)
        (by
          simp only [List.length_cons, List.length_nil,
            List.length_singleton] at h11 ⊢
          omega)
        (by
          intro x hx y hy
          rcases List.mem_singleton.mp hx with rfl
          exact (List.pairwise_cons.mp hpair).1 y hy)
        (List.pairwise_cons.mp hpair).2]
      simp [show (10 : Nat) = 9 + 1 from rfl, List.replicate_succ]
  · intro l now recorded hlook hold
    unfold rateLimitCheck
    simp only [hlook]
    have hfil : recorded.filter (fun ts => decide (now - ts < ONE_MINUTE)) = [] := by
      apply List.filter_eq_nil_iff.mpr
      intro t ht
      simpa using not_lt.mpr (hold t ht)
    rw [hfil]
    rw [if_neg (by simp [MAX_REQUESTS_PER_MINUTE])]

/-- Witness for C8: eleven requests at times 0..10 ms, and an accept after
the window has fully elapsed. -/
theorem rateLimit_claim_witness :
    ([0, 1, 2, 3, 4, 5, 6, 7, 8, 9, 10] : List Int).length = 11 ∧
    (runSeq [] "203.0.113.7".data [0, 1, 2, 3, 4, 5, 6, 7, 8, 9, 10]).2 =
      List.replicate 10 true ++ [false] ∧
    (rateLimitCheck [("203.0.113.7".data, [0])] "203.0.113.7".data 60000).1 =
      true :=
  ⟨by decide,
    (rateLimit_claim "203.0.113.7".data).1 [0, 1, 2, 3, 4, 5, 6, 7, 8, 9, 10]
      (by decide) (by decide),
    (rateLimit_claim "203.0.113.7".data).2 [("203.0.113.7".data, [0])] 60000
      [0] (by decide) (by decide)⟩

/-- C9 (confirmed): when the rate limiter rejects (the pruned recent count
already meets the cap), it returns with the ledger exactly as it was: no
timestamp is recorded and the lazily pruned list is not written back. -/
theorem rateLimit_reject_preserves (l : Ledger) (ip : List Char) (now : Int)
    (recorded : List Int) (hlook : lookupA l ip = some recorded)
    (hfull : MAX_REQUESTS_PER_MINUTE ≤
      (recorded.filter fun ts => decide (now - ts < ONE_MINUTE)).length) :
    rateLimitCheck l ip now = (false, l) := by
  unfold rateLimitCheck
  simp only [hlook]
  rw [if_pos hfull]

/-- Witness for C9: a caller with ten in-window timestamps and a stale entry
for another caller; the rejecting call leaves the ledger untouched. -/
theorem rateLimit_reject_preserves_witness :
    lookupA [("198.51.100.9".data, [0, 1, 2, 3, 4, 5, 6, 7, 8, 9])]
        "198.51.100.9".data = some [0, 1, 2, 3, 4, 5, 6, 7, 8, 9] ∧
    rateLimitCheck [("198.51.100.9".data, [0, 1, 2, 3, 4, 5, 6, 7, 8, 9])]
        "198.51.100.9".data 50 =
      (false, [("198.51.100.9".data, [0, 1, 2, 3, 4, 5, 6, 7, 8, 9])]) :=
  ⟨by decide,
    rateLimit_reject_preserves _ "198.51.100.9".data 50
      [0, 1, 2, 3, 4, 5, 6, 7, 8, 9] (by decide) (by decide)⟩

/-! ## Cosine-similarity lemmas -/

theorem foldl_dot_aux :
    ∀ (l : List (ℝ × ℝ)) (init : ℝ),
      l.foldl (fun s p => s + p.1 * p.2) init =
        init + (l.map fun p => p.1 * p.2).sum := by
  intro l
  induction l with
  | nil => simp
  | cons x xs ih => intro init; simp [ih, add_assoc]

theorem foldl_sq_aux :
    ∀ (l : List ℝ) (init : ℝ),
      l.foldl (fun s x => s + x * x) init =
        init + (l.map fun x => x * x).sum := by
  intro l
  induction l with
  | nil => simp
  | cons x xs ih => intro init; simp [ih, add_assoc]

theorem normSq_nonneg (a : List ℝ) : 0 ≤ normSq a := by
  apply List.sum_nonneg
  intro x hx
  rcases List.mem_map.mp hx with ⟨y, -, rfl⟩
  exact mul_self_nonneg y

theorem normV_eq_zero (a : List ℝ) : normV a = 0 ↔ normSq a = 0 :=
  Real.sqrt_eq_zero (normSq_nonneg a)

/-- C7 (confirmed): `cosineSimilarity` fails with the dimension-mismatch
error exactly when its inputs have different lengths; for equal-length
inputs it returns `0` whenever either vector's norm is `0`, and otherwise
returns the dot product divided by the product of the two norms — a
divisor that is then provably nonzero, so the division is never by zero. -/
theorem cosineSimilarity_spec (a b : List ℝ) :
    ((∃ e, cosineSimilarity a b = Except.error e) ↔ a.length ≠ b.length) ∧
    (a.length = b.length →
      ((normV a = 0 ∨ normV b = 0) → cosineSimilarity a b = Except.ok 0) ∧
      (normV a ≠ 0 → normV b ≠ 0 →
        normV a * normV b ≠ 0 ∧
        cosineSimilarity a b =
          Except.ok (dotP a b / (normV a * normV b)))) := by
  have hda : (a.zip b).foldl (fun s p => s + p.1 * p.2) (0 : ℝ) = dotP a b := by
    rw [foldl_dot_aux, zero_add]
    rfl
  have hna : a.foldl (fun s x => s + x * x) (0 : ℝ) = normSq a := by
    rw [foldl_sq_aux, zero_add]
    rfl
  have hnb : b.foldl (fun s x => s + x * x) (0 : ℝ) = normSq b := by
    rw [foldl_sq_aux, zero_add]
    rfl
  constructor
  · by_cases hlen : a.length = b.length
    · simp only [cosineSimilarity, if_neg (not_not_intro hlen)]
      constructor
      · rintro ⟨e, he⟩
        by_cases hz : a.foldl (fun s x => s + x * x) (0 : ℝ) = 0 ∨
            b.foldl (fun s x => s + x * x) (0 : ℝ) = 0
        · rw [if_pos hz] at he
          exact absurd he (by simp)
        · rw [if_neg hz] at he
          exact absurd he (by simp)
      · intro h
        exact absurd hlen h
    · simp only [cosineSimilarity, if_pos hlen]
      exact ⟨fun _ => hlen, fun _ => ⟨_, rfl⟩⟩
  · intro hlen
    constructor
    · intro hz
      have hz' : a.foldl (fun s x => s + x * x) (0 : ℝ) = 0 ∨
          b.foldl (fun s x => s + x * x) (0 : ℝ) = 0 := by
        rw [hna, hnb]
        rcases hz with h | h
        · exact Or.inl ((normV_eq_zero a).mp h)
        · exact Or.inr ((normV_eq_zero b).mp h)
      simp only [cosineSimilarity, if_neg (not_not_intro hlen), if_pos hz']
    · intro hza hzb
      have hza' : ¬ a.foldl (fun s x => s + x * x) (0 : ℝ) = 0 := by
        rw [hna]
        exact fun h => hza ((normV_eq_zero a).mpr h)
      have hzb' : ¬ b.foldl (fun s x => s + x * x) (0 : ℝ) = 0 := by
        rw [hnb]
        exact fun h => hzb ((normV_eq_zero b).mpr h)
      refine ⟨mul_ne_zero hza hzb, ?_⟩
      simp only [cosineSimilarity, if_neg (not_not_intro hlen)]
      rw [hda, hna, hnb]
      have hcond : ¬ (normSq a = 0 ∨ normSq b = 0) := by
        push_neg
        exact ⟨fun h => hza ((normV_eq_zero a).mpr h),
          fun h => hzb ((normV_eq_zero b).mpr h)⟩
      rw [if_neg hcond]
      rfl

/-- Witness for C7 at the one-dimensional unit vectors. -/
theorem cosineSimilarity_spec_witness :
    ([(1 : ℝ)].length = [(1 : ℝ)].length) ∧ normV [(1 : ℝ)] ≠ 0 ∧
    cosineSimilarity [(1 : ℝ)] [(1 : ℝ)] =
      Except.ok (dotP [(1 : ℝ)] [(1 : ℝ)] /
        (normV [(1 : ℝ)] * normV [(1 : ℝ)])) := by
  have h1 : normV [(1 : ℝ)] ≠ 0 := by
    unfold normV normSq
    norm_num
  exact ⟨rfl, h1, (((cosineSimilarity_spec _ _).2 rfl).2 h1 h1).2⟩

end CustomerRag
